import Mathlib

/-!
# Verification of the SaaS dashboard data-shaping pipeline

A shallow embedding of the pure data-shaping core of the repository:
`data_gen.py` (synthetic table generators) and `dashboard.py` (chart
builders).  Machine floats are modelled as exact rationals, pandas tables
as Lean lists of rows, and the file system (for the renderer's error path)
as the list of paths that are present.  Python string formatting
(`:.1f`, `:.0f`, `str` of a float with a finite decimal expansion) is
modelled by explicit round-half-to-even decimal rendering.
-/

namespace SaaSDash

/-! ## Numeric helpers shared by several builders -/

/-- `np.clip(x, lo, hi)`: clamp `x` into the closed interval `[lo, hi]`. -/
def clip (x lo hi : ℚ) : ℚ := min (max x lo) hi

/-- Truncation toward zero, the semantics of numpy `astype(int)` on a float. -/
def ratTrunc (q : ℚ) : ℤ := if 0 ≤ q then ⌊q⌋ else -⌊-q⌋

/-- Round to the nearest integer, ties to the even integer: the rounding used
by Python `format` with a fixed number of decimals. -/
def roundHalfEven (q : ℚ) : ℤ :=
  let f := ⌊q⌋
  let r := q - (f : ℚ)
  if r < 1 / 2 then f
  else if 1 / 2 < r then f + 1
  else if f % 2 = 0 then f else f + 1

/-- Python `f"{q:.1f}"`: one decimal place, round half to even, the sign taken
from the value itself. -/
def fmtFixed1 (q : ℚ) : String :=
  let n := (roundHalfEven (10 * q)).natAbs
  (if q < 0 then "-" else "") ++ toString (n / 10) ++ "." ++ toString (n % 10)

/-- Python `f"{q:.0f}"`: round half to even to an integer, the sign taken from
the value itself (so `-0.4` renders as `"-0"`). -/
def fmtFixed0 (q : ℚ) : String :=
  (if q < 0 then "-" else "") ++ toString (roundHalfEven q).natAbs

/-- Left-pad a digit string with zeros to width `k`. -/
def padZeros (s : String) (k : ℕ) : String :=
  String.mk (List.replicate (k - s.length) '0') ++ s

/-- Number of decimal digits needed to write `q` exactly (searched up to 17,
enough for every float the generator produces). -/
def decExp (q : ℚ) : ℕ :=
  (((List.range 18).find? fun k => (q * (10 : ℚ) ^ k).den = 1)).getD 17

/-- Python `str` of a float whose value is a finite decimal: minimal decimal
digits, but always at least one digit after the point (`str(112.0) = "112.0"`). -/
def ratStr (q : ℚ) : String :=
  let k := max 1 (decExp q)
  let a := (q * (10 : ℚ) ^ k).num.natAbs
  (if q < 0 then "-" else "") ++ toString (a / 10 ^ k) ++ "." ++ padZeros (toString (a % 10 ^ k)) k

theorem roundHalfEven_intCast (n : ℤ) : roundHalfEven (n : ℚ) = n := by
  norm_num [roundHalfEven]

theorem fmtFixed1_eval (q : ℚ) (n : ℤ) (hq : 10 * q = (n : ℚ)) :
    fmtFixed1 q =
      (if q < 0 then "-" else "") ++ toString (n.natAbs / 10) ++ "." ++ toString (n.natAbs % 10) := by
  rw [fmtFixed1]
  simp only [hq, roundHalfEven_intCast]

theorem fmtFixed0_eval (q : ℚ) (n : ℤ) (hq : q = (n : ℚ)) :
    fmtFixed0 q = (if q < 0 then "-" else "") ++ toString n.natAbs := by
  rw [fmtFixed0, hq, roundHalfEven_intCast]

/-! ## Funnel (Sankey) builder — `dashboard.create_funnel_sankey`

`labels = list(pd.unique(funnel[["source", "target"]].values.ravel()))` :
the two-column frame raveled row-major interleaves each edge's source then
target; `pd.unique` keeps the first occurrence of each label, in order.
`labels.index(x)` is the first (here: only) index of `x`. -/

structure FunnelEdge where
  source : String
  target : String
  value : ℕ
deriving DecidableEq, Repr

/-- Row-major ravel of the `source`/`target` columns: `[s0, t0, s1, t1, …]`. -/
def raveled : List FunnelEdge → List String
  | [] => []
  | e :: es => e.source :: e.target :: raveled es

/-- `pd.unique`: de-duplicate keeping the first occurrence of each element. -/
def firstSeenDedup : List String → List String
  | [] => []
  | x :: xs => x :: firstSeenDedup (xs.filter fun y => decide (y ≠ x))
termination_by l => l.length
decreasing_by
  simp only [List.length_cons]
  exact Nat.lt_succ_of_le (List.length_filter_le _ _)

/-- The Sankey node label list. -/
def nodeLabels (edges : List FunnelEdge) : List String :=
  firstSeenDedup (raveled edges)

/-- `labels.index(edge.source)`. -/
def sourceIndex (edges : List FunnelEdge) (e : FunnelEdge) : ℕ :=
  (nodeLabels edges).indexOf e.source

/-- `labels.index(edge.target)`. -/
def targetIndex (edges : List FunnelEdge) (e : FunnelEdge) : ℕ :=
  (nodeLabels edges).indexOf e.target

/-- The funnel edge table written by `data_gen.generate_funnel_data`. -/
def funnelFlows : List FunnelEdge :=
  [⟨"Organic Search", "MQL", 5000⟩,
   ⟨"Paid Search", "MQL", 4000⟩,
   ⟨"Content Marketing", "MQL", 3000⟩,
   ⟨"Social Media", "MQL", 3500⟩,
   ⟨"Direct", "MQL", 4500⟩,
   ⟨"Email Marketing", "MQL", 3200⟩,
   ⟨"Referrals", "MQL", 2800⟩,
   ⟨"MQL", "SQL", 6000⟩,
   ⟨"MQL", "Unqualified", 2500⟩,
   ⟨"SQL", "Opportunity", 1800⟩,
   ⟨"SQL", "No Opportunity", 2000⟩,
   ⟨"SQL", "Lost", 1500⟩,
   ⟨"SQL", "Won", 700⟩]

theorem mem_firstSeenDedup (l : List String) (a : String) :
    a ∈ firstSeenDedup l ↔ a ∈ l := by
  induction l using firstSeenDedup.induct with
  | case1 => simp [firstSeenDedup]
  | case2 x xs ih =>
    rw [firstSeenDedup]
    simp only [List.mem_cons, ih, List.mem_filter, decide_eq_true_eq]
    by_cases hax : a = x
    · simp [hax]
    · simp [hax]

theorem nodup_firstSeenDedup (l : List String) : (firstSeenDedup l).Nodup := by
  induction l using firstSeenDedup.induct with
  | case1 => simp [firstSeenDedup]
  | case2 x xs ih =>
    rw [firstSeenDedup]
    refine List.nodup_cons.mpr ⟨?_, ih⟩
    intro hx
    rw [mem_firstSeenDedup] at hx
    have := (List.mem_filter.mp hx).2
    simp at this

theorem sublist_firstSeenDedup (l : List String) : List.Sublist (firstSeenDedup l) l := by
  induction l using firstSeenDedup.induct with
  | case1 => simp [firstSeenDedup]
  | case2 x xs ih =>
    rw [firstSeenDedup]
    exact List.Sublist.cons₂ x (ih.trans (List.filter_sublist xs))

theorem mem_raveled (edges : List FunnelEdge) (a : String) :
    a ∈ raveled edges ↔ ∃ e ∈ edges, a = e.source ∨ a = e.target := by
  induction edges with
  | nil => simp [raveled]
  | cons e es ih =>
    simp only [raveled, List.mem_cons, ih]
    constructor
    · rintro (rfl | rfl | ⟨e2, he2, h⟩)
      · exact ⟨e, Or.inl rfl, Or.inl rfl⟩
      · exact ⟨e, Or.inl rfl, Or.inr rfl⟩
      · exact ⟨e2, Or.inr he2, h⟩
    · rintro ⟨e2, (rfl | he2), h⟩
      · rcases h with rfl | rfl
        · exact Or.inl rfl
        · exact Or.inr (Or.inl rfl)
      · exact Or.inr (Or.inr ⟨e2, he2, h⟩)

/-- C1: the Sankey node label list is the de-duplicated union of all source
and target labels in first-seen (raveled) order — it has no duplicates, is a
subsequence of the raveled label stream (order preserved), and contains
exactly the labels appearing as a source or target — and every edge's
resolved source/target index is in range and points back to a label equal to
the edge's original source/target string. -/
theorem funnel_node_index_mapping (edges : List FunnelEdge) (e : FunnelEdge)
    (he : e ∈ edges) :
    (nodeLabels edges).Nodup ∧
    List.Sublist (nodeLabels edges) (raveled edges) ∧
    (∀ s : String, s ∈ nodeLabels edges ↔ ∃ e2 ∈ edges, s = e2.source ∨ s = e2.target) ∧
    sourceIndex edges e < (nodeLabels edges).length ∧
    targetIndex edges e < (nodeLabels edges).length ∧
    (nodeLabels edges).get? (sourceIndex edges e) = some e.source ∧
    (nodeLabels edges).get? (targetIndex edges e) = some e.target := by
  have hmem : ∀ s : String, s ∈ nodeLabels edges ↔ ∃ e2 ∈ edges, s = e2.source ∨ s = e2.target := by
    intro s
    rw [nodeLabels, mem_firstSeenDedup, mem_raveled]
  have hs : e.source ∈ nodeLabels edges := (hmem e.source).mpr ⟨e, he, Or.inl rfl⟩
  have ht : e.target ∈ nodeLabels edges := (hmem e.target).mpr ⟨e, he, Or.inr rfl⟩
  refine ⟨nodup_firstSeenDedup _, sublist_firstSeenDedup _, hmem, ?_, ?_, ?_, ?_⟩
  · exact List.indexOf_lt_length.mpr hs
  · exact List.indexOf_lt_length.mpr ht
  · exact List.indexOf_get? hs
  · exact List.indexOf_get? ht

theorem funnel_node_index_mapping_witness :
    (nodeLabels funnelFlows).Nodup ∧
    List.Sublist (nodeLabels funnelFlows) (raveled funnelFlows) ∧
    (∀ s : String, s ∈ nodeLabels funnelFlows ↔
      ∃ e2 ∈ funnelFlows, s = e2.source ∨ s = e2.target) ∧
    sourceIndex funnelFlows ⟨"MQL", "SQL", 6000⟩ < (nodeLabels funnelFlows).length ∧
    targetIndex funnelFlows ⟨"MQL", "SQL", 6000⟩ < (nodeLabels funnelFlows).length ∧
    (nodeLabels funnelFlows).get? (sourceIndex funnelFlows ⟨"MQL", "SQL", 6000⟩) = some "MQL" ∧
    (nodeLabels funnelFlows).get? (targetIndex funnelFlows ⟨"MQL", "SQL", 6000⟩) = some "SQL" :=
  funnel_node_index_mapping funnelFlows ⟨"MQL", "SQL", 6000⟩ (by decide)

/-! ## ARR waterfall builder — `dashboard.create_arr_waterfall`

For each row value `val` the code appends `f"${val/1_000_000:.1f}M"` when
`abs(val) >= 1_000_000`, else `f"${val/1_000:.0f}K"`. -/

/-- The display text the waterfall builder computes for one row value. -/
def formatWaterfallValue (v : ℚ) : String :=
  if 1000000 ≤ |v| then "$" ++ fmtFixed1 (v / 1000000) ++ "M"
  else "$" ++ fmtFixed0 (v / 1000) ++ "K"

/-- C2 counterexample: the claim routes every value below 1,000,000 to the
"$XK" form, but the code branches on the absolute value: at `-1,500,000`
(which is `< 1,000,000`) the displayed text is `"$-1.5M"`, an "M"-form
string, not a "K"-form one. -/
theorem arr_format_counterexample :
    (-1500000 : ℚ) < 1000000 ∧
    formatWaterfallValue (-1500000) = "$-1.5M" ∧
    formatWaterfallValue (-1500000) ≠ "$" ++ fmtFixed0 ((-1500000 : ℚ) / 1000) ++ "K" := by
  have hfmt : formatWaterfallValue (-1500000) = "$-1.5M" := by
    rw [formatWaterfallValue, if_pos (by norm_num : (1000000 : ℚ) ≤ |(-1500000 : ℚ)|),
        fmtFixed1_eval ((-1500000 : ℚ) / 1000000) (-15) (by norm_num),
        if_pos (by norm_num : (-1500000 : ℚ) / 1000000 < 0)]
    decide
  have hk : fmtFixed0 ((-1500000 : ℚ) / 1000) = "-1500" := by
    rw [fmtFixed0_eval ((-1500000 : ℚ) / 1000) (-1500) (by norm_num),
        if_pos (by norm_num : (-1500000 : ℚ) / 1000 < 0)]
    decide
  refine ⟨by norm_num, hfmt, ?_⟩
  rw [hfmt, hk]
  decide

/-- C2 (amended): the displayed text is `"$X.XM"` with exactly one decimal
digit when the value's absolute value is at least 1,000,000, and otherwise
`"$XK"` with an integer number of thousands. -/
theorem arr_format_amended (v : ℚ) :
    (1000000 ≤ |v| →
      ∃ a b : ℕ, b < 10 ∧
        (formatWaterfallValue v = "$" ++ toString a ++ "." ++ toString b ++ "M" ∨
         formatWaterfallValue v = "$-" ++ toString a ++ "." ++ toString b ++ "M")) ∧
    (|v| < 1000000 →
      ∃ n : ℕ,
        (formatWaterfallValue v = "$" ++ toString n ++ "K" ∨
         formatWaterfallValue v = "$-" ++ toString n ++ "K")) := by
  constructor
  · intro h
    refine ⟨(roundHalfEven (10 * (v / 1000000))).natAbs / 10,
      (roundHalfEven (10 * (v / 1000000))).natAbs % 10, Nat.mod_lt _ (by norm_num), ?_⟩
    rw [formatWaterfallValue, if_pos h, fmtFixed1]
    by_cases hv : v / 1000000 < 0
    · rw [if_pos hv]
      right
      simp [String.append_assoc]
      rfl
    · rw [if_neg hv]
      left
      simp [String.append_assoc]
  · intro h
    refine ⟨(roundHalfEven (v / 1000)).natAbs, ?_⟩
    rw [formatWaterfallValue, if_neg (not_le.mpr h), fmtFixed0]
    by_cases hv : v / 1000 < 0
    · rw [if_pos hv]
      right
      rfl
    · rw [if_neg hv]
      left
      rfl

theorem arr_format_amended_witness :
    ((1000000 : ℚ) ≤ |(2500000 : ℚ)| ∧
      ∃ a b : ℕ, b < 10 ∧
        (formatWaterfallValue 2500000 = "$" ++ toString a ++ "." ++ toString b ++ "M" ∨
         formatWaterfallValue 2500000 = "$-" ++ toString a ++ "." ++ toString b ++ "M")) ∧
    (|(-398000 : ℚ)| < 1000000 ∧
      ∃ n : ℕ,
        (formatWaterfallValue (-398000) = "$" ++ toString n ++ "K" ∨
         formatWaterfallValue (-398000) = "$-" ++ toString n ++ "K")) :=
  ⟨⟨by norm_num, (arr_format_amended 2500000).1 (by norm_num)⟩,
   ⟨by norm_num, (arr_format_amended (-398000)).2 (by norm_num)⟩⟩

/-! ## KPI metric rows and card rendering — `dashboard.generate_kpi_cards_html`

A metric row of `data/metrics.csv`: `metric, value, delta, prefix, suffix`.
An empty optional string round-trips through the CSV as NaN, so the two
optional columns are modelled as `Option String` (`pd.isna`/`pd.notna`
is `Option.isNone`/`Option.isSome`). -/

structure MetricRow where
  metric : String
  value : ℚ
  delta : ℚ
  pfx : Option String
  sfx : Option String
deriving DecidableEq, Repr

/-- The delta line of one KPI card, from `generate_kpi_cards_html`:
`delta_symbol` is `"↗"` for a strictly positive delta, else `"↘"`; a row
whose suffix is `"M"` renders `f"{delta_symbol} {delta:.1f}%"`, any other row
renders `f"{delta_symbol} {prefix}{delta}{suffix}"` with missing optionals
as empty strings. -/
def deltaText (row : MetricRow) : String :=
  let sym := if 0 < row.delta then "↗" else "↘"
  if row.sfx = some "M" then
    sym ++ " " ++ fmtFixed1 row.delta ++ "%"
  else
    sym ++ " " ++ row.pfx.getD "" ++ ratStr row.delta ++ row.sfx.getD ""

/-- Row 1 of `data_gen.generate_metrics`. -/
def mrrRow : MetricRow :=
  { metric := "Monthly Recurring Revenue", value := 3.2, delta := 4.2,
    pfx := some "$", sfx := some "M" }

/-- Row 2 of `data_gen.generate_metrics`. -/
def cacRow : MetricRow :=
  { metric := "CAC Payback Period", value := 14.2, delta := -0.9,
    pfx := none, sfx := some "mo" }

/-- Row 3 of `data_gen.generate_metrics`. -/
def nrrRow : MetricRow :=
  { metric := "Net Revenue Retention", value := 112, delta := 4.5,
    pfx := none, sfx := some "%" }

/-- Row 4 of `data_gen.generate_metrics`. -/
def churnRow : MetricRow :=
  { metric := "Monthly Churn Rate", value := 4.2, delta := -0.6,
    pfx := none, sfx := some "%" }

/-- Row 5 of `data_gen.generate_metrics`. -/
def ltvRow : MetricRow :=
  { metric := "LTV:CAC Ratio", value := 4.8, delta := 0.5,
    pfx := none, sfx := some "x" }

/-- The 5-row sample table written by `data_gen.generate_metrics`. -/
def metricsSample : List MetricRow := [mrrRow, cacRow, nrrRow, churnRow, ltvRow]

theorem decExp_max_one (q : ℚ) (n : ℤ) (hq : q * 10 = (n : ℚ)) :
    max 1 (decExp q) = 1 := by
  have h1 : ((q * (10 : ℚ) ^ 1).den = 1) := by
    rw [pow_one, hq]
    exact Rat.den_intCast n
  rw [decExp, show List.range 18 = 0 :: 1 :: List.range' 2 16 from by decide]
  by_cases h0 : ((q * (10 : ℚ) ^ 0).den = 1)
  · rw [List.find?_cons_of_pos _ (by simpa using h0)]
    simp
  · rw [List.find?_cons_of_neg _ (by simpa using h0),
        List.find?_cons_of_pos _ (by simpa using h1)]
    simp

theorem ratStr_eval (q : ℚ) (n : ℤ) (hq : q * 10 = (n : ℚ)) :
    ratStr q = (if q < 0 then "-" else "") ++ toString (n.natAbs / 10) ++ "." ++
      padZeros (toString (n.natAbs % 10)) 1 := by
  rw [ratStr]
  simp only [decExp_max_one q n hq, pow_one, hq, Rat.num_intCast]

/-- C3 counterexample: the code's special case triggers on suffix `"M"`, not
on the percent sign.  The MRR row has suffix `"M"` (not `"%"`), yet its delta
renders as the percent form `"↗ 4.2%"` instead of the raw number wrapped in
the row's prefix and suffix (`"↗ $4.2M"`), which the claim prescribes for
every non-percent suffix. -/
theorem kpi_delta_special_case_counterexample :
    mrrRow.sfx = some "M" ∧
    mrrRow.sfx ≠ some "%" ∧
    deltaText mrrRow = "↗ 4.2%" ∧
    deltaText mrrRow ≠
      (if 0 < mrrRow.delta then "↗" else "↘") ++ " " ++ mrrRow.pfx.getD "" ++
        ratStr mrrRow.delta ++ mrrRow.sfx.getD "" := by
  have hf : fmtFixed1 (4.2 : ℚ) = "4.2" := by
    rw [fmtFixed1_eval (4.2 : ℚ) 42 (by norm_num), if_neg (by norm_num : ¬(4.2 : ℚ) < 0)]
    decide
  have hr : ratStr (4.2 : ℚ) = "4.2" := by
    rw [ratStr_eval (4.2 : ℚ) 42 (by norm_num), if_neg (by norm_num : ¬(4.2 : ℚ) < 0)]
    decide
  have hdt : deltaText mrrRow = "↗ 4.2%" := by
    rw [deltaText]
    simp only [mrrRow]
    rw [if_pos trivial, if_pos (by norm_num : (0 : ℚ) < 4.2), hf]
    decide
  refine ⟨rfl, by decide, hdt, ?_⟩
  rw [hdt]
  simp only [mrrRow]
  rw [if_pos (by norm_num : (0 : ℚ) < 4.2), hr]
  decide

/-- C3 (amended): the special case triggers on the suffix `"M"`: such a row's
delta renders with one decimal place followed by a percent sign (the prefix
is ignored); a row with any other suffix — the percent sign included —
renders the raw delta wrapped in the row's prefix and suffix. -/
theorem kpi_delta_format_amended (row : MetricRow) :
    (row.sfx = some "M" →
      deltaText row =
        (if 0 < row.delta then "↗" else "↘") ++ " " ++ fmtFixed1 row.delta ++ "%") ∧
    (row.sfx ≠ some "M" →
      deltaText row =
        (if 0 < row.delta then "↗" else "↘") ++ " " ++ row.pfx.getD "" ++
          ratStr row.delta ++ row.sfx.getD "") := by
  constructor
  · intro h
    rw [deltaText]
    simp only [if_pos h]
  · intro h
    rw [deltaText]
    simp only [if_neg h]

theorem kpi_delta_format_amended_witness :
    deltaText mrrRow =
      (if 0 < mrrRow.delta then "↗" else "↘") ++ " " ++ fmtFixed1 mrrRow.delta ++ "%" ∧
    deltaText nrrRow =
      (if 0 < nrrRow.delta then "↗" else "↘") ++ " " ++ nrrRow.pfx.getD "" ++
        ratStr nrrRow.delta ++ nrrRow.sfx.getD "" :=
  ⟨(kpi_delta_format_amended mrrRow).1 rfl,
   (kpi_delta_format_amended nrrRow).2 (by decide)⟩

/-- `delta_color` of `create_kpi_indicators` (line 42): green iff the delta is
strictly positive. -/
def kpiDeltaColor (row : MetricRow) : String :=
  if 0 < row.delta then "green" else "red"

/-- `delta_symbol` of `create_kpi_indicators` (line 43). -/
def kpiDeltaSymbol (row : MetricRow) : String :=
  if 0 < row.delta then "↑" else "↓"

/-- One KPI card of `generate_kpi_cards_html`: the CSS class of the delta
span, the delta line text, and the grid column (`i + 1`). -/
structure KpiCard where
  cls : String
  text : String
  column : ℕ
deriving DecidableEq, Repr

/-- `generate_kpi_cards_html`: one card per metric row, in order; the class is
`"positive"` for a strictly positive delta and `"negative"` otherwise. -/
def generateKpiCards (metrics : List MetricRow) : List KpiCard :=
  metrics.enum.map fun p =>
    { cls := if (0 : ℚ) < p.2.delta then "positive" else "negative",
      text := deltaText p.2,
      column := p.1 + 1 }

/-- The data `create_kpi_indicators` attaches to one indicator figure: title,
value, number prefix/suffix and the fixed card height.  The function also
computes a delta color and symbol, but never attaches them to the figure. -/
structure IndicatorFig where
  titleText : String
  value : ℚ
  numPfx : String
  numSfx : String
  height : ℕ
deriving DecidableEq, Repr

/-- `create_kpi_indicators`: one `go.Indicator` figure per metric row.
`_deltaColor` and `_deltaSymbol` mirror the two dead local variables of the
source (lines 42–43): computed, then never used in the figure. -/
def createKpiIndicators (metrics : List MetricRow) : List IndicatorFig :=
  metrics.map fun row =>
    let _deltaColor := kpiDeltaColor row
    let _deltaSymbol := kpiDeltaSymbol row
    { titleText := "<b>" ++ row.metric.toUpper ++ "</b>",
      value := row.value,
      numPfx := row.pfx.getD "",
      numSfx := row.sfx.getD "",
      height := 120 }

theorem generateKpiCards_length (metrics : List MetricRow) :
    (generateKpiCards metrics).length = metrics.length := by
  rw [generateKpiCards, List.length_map, List.enum_length]

theorem generateKpiCards_get? (metrics : List MetricRow) (i : ℕ) (row : MetricRow)
    (hrow : metrics.get? i = some row) :
    (generateKpiCards metrics).get? i =
      some ⟨if 0 < row.delta then "positive" else "negative", deltaText row, i + 1⟩ := by
  rw [generateKpiCards, List.get?_map, List.get?_enum, hrow]
  rfl

/-- C4: each KPI card's class/symbol is chosen by the sign of the delta —
strictly positive gives green with an up arrow and the `"positive"` class,
otherwise red with a down arrow and the `"negative"` class — and on the
5-row sample table the builder emits exactly 5 cards (and 5 indicator
figures), with MRR's card positive and CAC Payback Period's negative. -/
theorem kpi_card_sign_rule (metrics : List MetricRow) (i : ℕ) (row : MetricRow)
    (hrow : metrics.get? i = some row) :
    (generateKpiCards metrics).length = metrics.length ∧
    (0 < row.delta →
      (generateKpiCards metrics).get? i = some ⟨"positive", deltaText row, i + 1⟩ ∧
      kpiDeltaColor row = "green" ∧ kpiDeltaSymbol row = "↑") ∧
    (¬0 < row.delta →
      (generateKpiCards metrics).get? i = some ⟨"negative", deltaText row, i + 1⟩ ∧
      kpiDeltaColor row = "red" ∧ kpiDeltaSymbol row = "↓") ∧
    (generateKpiCards metricsSample).length = 5 ∧
    (createKpiIndicators metricsSample).length = 5 ∧
    ((generateKpiCards metricsSample).get? 0).map KpiCard.cls = some "positive" ∧
    ((generateKpiCards metricsSample).get? 1).map KpiCard.cls = some "negative" := by
  have hmrr : (0 : ℚ) < mrrRow.delta := by norm_num [mrrRow]
  have hcac : ¬(0 : ℚ) < cacRow.delta := by norm_num [cacRow]
  refine ⟨generateKpiCards_length _, ?_, ?_, ?_, rfl, ?_, ?_⟩
  · intro h
    rw [generateKpiCards_get? metrics i row hrow, if_pos h, kpiDeltaColor, if_pos h,
        kpiDeltaSymbol, if_pos h]
    exact ⟨rfl, rfl, rfl⟩
  · intro h
    rw [generateKpiCards_get? metrics i row hrow, if_neg h, kpiDeltaColor, if_neg h,
        kpiDeltaSymbol, if_neg h]
    exact ⟨rfl, rfl, rfl⟩
  · rw [generateKpiCards_length]
    rfl
  · rw [generateKpiCards_get? metricsSample 0 mrrRow rfl, if_pos hmrr]
    rfl
  · rw [generateKpiCards_get? metricsSample 1 cacRow rfl, if_neg hcac]
    rfl

theorem kpi_card_sign_rule_witness :
    (generateKpiCards metricsSample).length = metricsSample.length ∧
    (0 < mrrRow.delta →
      (generateKpiCards metricsSample).get? 0 = some ⟨"positive", deltaText mrrRow, 0 + 1⟩ ∧
      kpiDeltaColor mrrRow = "green" ∧ kpiDeltaSymbol mrrRow = "↑") ∧
    (¬0 < mrrRow.delta →
      (generateKpiCards metricsSample).get? 0 = some ⟨"negative", deltaText mrrRow, 0 + 1⟩ ∧
      kpiDeltaColor mrrRow = "red" ∧ kpiDeltaSymbol mrrRow = "↓") ∧
    (generateKpiCards metricsSample).length = 5 ∧
    (createKpiIndicators metricsSample).length = 5 ∧
    ((generateKpiCards metricsSample).get? 0).map KpiCard.cls = some "positive" ∧
    ((generateKpiCards metricsSample).get? 1).map KpiCard.cls = some "negative" :=
  kpi_card_sign_rule metricsSample 0 mrrRow rfl

/-- Delta-erasure: what an indicator figure may depend on. -/
def eraseDelta (row : MetricRow) : MetricRow := { row with delta := 0 }

/-- C10: the indicator-figure builder's output does not depend on the delta
column — two metric tables that agree on every column except `delta` produce
identical indicator figure lists. -/
theorem kpi_indicators_delta_independent (ms₁ ms₂ : List MetricRow)
    (h : ms₁.map eraseDelta = ms₂.map eraseDelta) :
    createKpiIndicators ms₁ = createKpiIndicators ms₂ := by
  have key : ∀ ms : List MetricRow,
      createKpiIndicators ms = createKpiIndicators (ms.map eraseDelta) := by
    intro ms
    rw [createKpiIndicators, createKpiIndicators, List.map_map]
    rfl
  rw [key ms₁, key ms₂, h]

theorem kpi_indicators_delta_independent_witness :
    createKpiIndicators metricsSample = createKpiIndicators (metricsSample.map eraseDelta) :=
  kpi_indicators_delta_independent _ _ rfl

/-! ## Renderer error path — `dashboard.load_data` / `dashboard.main`

The file system is modelled as the list of present paths.  `load_data` reads
the six CSVs in order inside one `try`; the first missing file raises
`FileNotFoundError`, which is caught: the handler prints the error and the
generator hint and returns `None`, upon which `main` returns before the
output directory is created and before the dashboard file is written. -/

/-- The six input files `load_data` reads, in read order. -/
def requiredFiles : List String :=
  ["data/metrics.csv", "data/channel_acquisition.csv", "data/arr_movement.csv",
   "data/funnel_data.csv", "data/cohort_data.csv", "data/additional_metrics.csv"]

/-- `load_data`: the first missing file (in read order) aborts the whole read. -/
def loadDataOutcome (present : List String) : Except String Unit :=
  match requiredFiles.find? (fun f => !(present.contains f)) with
  | some f => .error f
  | none => .ok ()

/-- What a run of `main` produces: the printed lines, in order, and whether
`output/dashboard.html` was written. -/
structure RenderRun where
  printed : List String
  wroteDashboard : Bool
deriving DecidableEq, Repr

/-- The hint printed by the `except FileNotFoundError` handler. -/
def generatorHint : String := "Please run data_gen.py first to generate the data files."

/-- `main`: header, then `load_data`; on `None` return at once (no write), else
build the charts, write the dashboard and print the success lines. -/
def mainRender (present : List String) : RenderRun :=
  match loadDataOutcome present with
  | .error f =>
      { printed := ["Creating SaaS Business Dashboard...",
                    "Error loading data: " ++ f,
                    generatorHint],
        wroteDashboard := false }
  | .ok _ =>
      { printed := ["Creating SaaS Business Dashboard...",
                    "Dashboard created successfully!",
                    "Open 'output/dashboard.html' in your web browser to view the dashboard."],
        wroteDashboard := true }

/-- C5: when any of the six input CSVs is missing, the renderer does not write
the dashboard file, prints the hint instructing the user to run the generator
first, and reports the missing file in a human-readable error line (the
exception is caught, so no stack trace propagates: `mainRender` is total). -/
theorem missing_file_graceful_exit (present : List String) (f : String)
    (hf : f ∈ requiredFiles) (hmiss : f ∉ present) :
    (mainRender present).wroteDashboard = false ∧
    generatorHint ∈ (mainRender present).printed ∧
    ∃ g ∈ requiredFiles, g ∉ present ∧
      "Error loading data: " ++ g ∈ (mainRender present).printed := by
  rcases hg : requiredFiles.find? (fun x => !(present.contains x)) with _ | g
  · exfalso
    have hall := List.find?_eq_none.mp hg f hf
    cases hb : present.contains f with
    | false => exact hall (by rw [hb]; rfl)
    | true => exact hmiss (List.elem_iff.mp hb)
  · have hgmem : g ∈ requiredFiles := List.mem_of_find?_eq_some hg
    have hgp := List.find?_some hg
    have hgmiss : g ∉ present := by
      intro hc
      have hc2 : present.contains g = true := List.elem_iff.mpr hc
      simp only [hc2, Bool.not_true] at hgp
      exact Bool.false_ne_true hgp
    rw [mainRender, loadDataOutcome, hg]
    exact ⟨rfl, by simp, ⟨g, hgmem, hgmiss, by simp⟩⟩

theorem missing_file_graceful_exit_witness :
    (mainRender []).wroteDashboard = false ∧
    generatorHint ∈ (mainRender []).printed ∧
    ∃ g ∈ requiredFiles, g ∉ ([] : List String) ∧
      "Error loading data: " ++ g ∈ (mainRender []).printed :=
  missing_file_graceful_exit [] "data/metrics.csv" (by decide) (by decide)

/-! ## Channel acquisition generator — `data_gen.generate_channel_acquisition`

Each cell is `np.clip(trend + seasonal + noise, 50, None).astype(int)`:
clamp below at 50 (no upper bound), then truncate toward zero. -/

/-- One cell of a channel column, as a function of the real-valued trend,
seasonal and noise summands produced by the RNG. -/
def channelCellValue (trend seasonal noise : ℚ) : ℤ :=
  ratTrunc (max (trend + seasonal + noise) 50)

/-- C7: every value written into a channel column is an integer at least 50,
whatever the trend/seasonal/noise summands are. -/
theorem channel_value_floor (trend seasonal noise : ℚ) :
    50 ≤ channelCellValue trend seasonal noise := by
  rw [channelCellValue, ratTrunc]
  have h : (50 : ℚ) ≤ max (trend + seasonal + noise) 50 := le_max_right _ _
  rw [if_pos (le_trans (by norm_num) h)]
  exact Int.le_floor.mpr (by exact_mod_cast h)

/-! ## Cohort generator — `data_gen.generate_cohort_data`

`retention = clip(100 - cumsum(declines), 45, 100)`, then
`retention += seasonal_adjustment`, then `retention = clip(retention, 45, 100)`. -/

/-- `np.cumsum`. -/
def cumsum (l : List ℚ) : List ℚ := (l.scanl (fun a x => a + x) 0).drop 1

/-- One cohort row: cumulative declines from a 100% base, clipped to
`[45, 100]`, plus the per-month seasonal adjustment, clipped again. -/
def cohortRowValues (declines seasonals : List ℚ) : List ℚ :=
  let retention0 := (cumsum declines).map (fun c => (100 : ℚ) - c)
  let retention1 := retention0.map (fun x => clip x 45 100)
  List.zipWith (fun x s => clip (x + s) 45 100) retention1 seasonals

theorem clip_mem_Icc (x lo hi : ℚ) (h : lo ≤ hi) : lo ≤ clip x lo hi ∧ clip x lo hi ≤ hi := by
  rw [clip]
  exact ⟨le_min (le_max_right _ _) h, min_le_right _ _⟩

theorem mem_zipWith {α β γ : Type} {f : α → β → γ} {c : γ} :
    ∀ {as : List α} {bs : List β}, c ∈ List.zipWith f as bs → ∃ a b, c = f a b
  | a :: as, b :: bs, h => by
    rcases List.mem_cons.mp h with h | h
    · exact ⟨a, b, h⟩
    · exact mem_zipWith h

/-- C8: every retention value the generator writes — after the seasonal
adjustment and the final clip — lies in the closed interval `[45, 100]`,
whatever the decline and seasonal sequences are. -/
theorem cohort_retention_bounds (declines seasonals : List ℚ) (v : ℚ)
    (hv : v ∈ cohortRowValues declines seasonals) : 45 ≤ v ∧ v ≤ 100 := by
  rw [cohortRowValues] at hv
  obtain ⟨a, b, rfl⟩ := mem_zipWith hv
  exact clip_mem_Icc _ _ _ (by norm_num)

theorem cohort_retention_bounds_witness :
    (98 : ℚ) ∈ cohortRowValues [3] [1] ∧ ((45 : ℚ) ≤ 98 ∧ (98 : ℚ) ≤ 100) := by
  have hmem : (98 : ℚ) ∈ cohortRowValues [3] [1] := by
    rw [cohortRowValues]
    have h1 : cumsum [3] = [3] := by
      rw [cumsum]
      norm_num [List.scanl]
    rw [h1]
    have h2 : clip ((100 : ℚ) - 3) 45 100 = 97 := by
      rw [clip]
      norm_num
    have h3 : clip ((97 : ℚ) + 1) 45 100 = 98 := by
      rw [clip]
      norm_num
    simp only [List.map, List.zipWith, h2, h3]
    norm_num
  exact ⟨hmem, cohort_retention_bounds [3] [1] 98 hmem⟩

/-! ## ARR movement generator — `data_gen.generate_arr_movement`

`ending_arr = starting_arr + new_business + expansion + contraction + churn`;
the six rows carry the same values, tagged `absolute`/`relative`/`total`. -/

/-- The ARR movement table, as a function of the four RNG draws (`con` and
`ch` are the already-negated contraction and churn values, as in the rows). -/
def arrMovementRows (nb ex con ch : ℚ) : List (String × String × ℚ) :=
  [("Starting ARR", "absolute", 28000000),
   ("New Business", "relative", nb),
   ("Expansion", "relative", ex),
   ("Contraction", "relative", con),
   ("Churn", "relative", ch),
   ("Ending ARR", "total", 28000000 + nb + ex + con + ch)]

/-- Sum of the `value` column over the rows with the given `measure` tag. -/
def measureSum (rows : List (String × String × ℚ)) (m : String) : ℚ :=
  ((rows.filter fun r => r.2.1 == m).map fun r => r.2.2).sum

/-- C9: in every ARR movement table the generator writes, the ending (total)
value equals the starting (absolute) value plus the four relative rows —
exactly, hence in particular within the 1e-6 relative tolerance. -/
theorem arr_waterfall_balance (nb ex con ch : ℚ) :
    measureSum (arrMovementRows nb ex con ch) "total" =
      measureSum (arrMovementRows nb ex con ch) "absolute" +
        measureSum (arrMovementRows nb ex con ch) "relative" ∧
    |measureSum (arrMovementRows nb ex con ch) "total" -
        (measureSum (arrMovementRows nb ex con ch) "absolute" +
          measureSum (arrMovementRows nb ex con ch) "relative")| ≤
      1 / 1000000 * |measureSum (arrMovementRows nb ex con ch) "total"| := by
  have habs : measureSum (arrMovementRows nb ex con ch) "absolute" = 28000000 := by
    simp [measureSum, arrMovementRows]
  have hrel : measureSum (arrMovementRows nb ex con ch) "relative" = nb + ex + con + ch := by
    simp [measureSum, arrMovementRows]
    ring
  have htot : measureSum (arrMovementRows nb ex con ch) "total" =
      28000000 + nb + ex + con + ch := by
    simp [measureSum, arrMovementRows]
  constructor
  · rw [habs, hrel, htot]
    ring
  · rw [habs, hrel, htot]
    have : (28000000 : ℚ) + nb + ex + con + ch - (28000000 + (nb + ex + con + ch)) = 0 := by
      ring
    rw [this, abs_zero]
    positivity

/-! ## Stacked-area tick labels — `dashboard.create_channel_acquisition_chart`

`N = 2; tick_dates = channel["date"][N:-N:3] if len(channel["date"]) > 2*N
else channel["date"][::3]`.  Python slicing `l[s:e:3]` with resolved
non-negative bounds keeps the elements whose index `i` satisfies
`s ≤ i < e` and `(i - s) % 3 = 0`. -/

/-- Python slicing, index-based: scan the list with a running index and keep
the selected elements. -/
def sliceAux {α : Type} (s e step : ℕ) : ℕ → List α → List α
  | _, [] => []
  | i, x :: xs =>
      (if s ≤ i ∧ i < e ∧ (i - s) % step = 0 then [x] else []) ++ sliceAux s e step (i + 1) xs

/-- `l[s:e:step]` for resolved non-negative bounds and positive step. -/
def pySlice {α : Type} (l : List α) (s e step : ℕ) : List α := sliceAux s e step 0 l

/-- `tick_dates`: the slice `[2:-2:3]` when the series has more than
`2 * N = 4` points (so the negative stop `-2` resolves to `length - 2`),
else the slice `[::3]`. -/
def tickDates {α : Type} (dates : List α) : List α :=
  if 2 * 2 < dates.length then pySlice dates 2 (dates.length - 2) 3
  else pySlice dates 0 dates.length 3

/-- Every third element of a list, structurally. -/
def everyThird {α : Type} : List α → List α
  | [] => []
  | x :: xs => x :: everyThird (xs.drop 2)
termination_by l => l.length
decreasing_by
  simp only [List.length_cons, List.length_drop]
  omega

/-- The spec's wording: skip the first 2 and last 2 dates and take every 3rd
of the rest when there are more than 4 points, else every 3rd point of the
whole series without trimming the ends. -/
def tickDatesSpec {α : Type} (dates : List α) : List α :=
  if 4 < dates.length then everyThird ((dates.drop 2).take (dates.length - 4))
  else everyThird dates

theorem sliceAux_stop_le {α : Type} (s e step i : ℕ) (l : List α) (h : e ≤ i) :
    sliceAux s e step i l = [] := by
  induction l generalizing i with
  | nil => rfl
  | cons x xs ih =>
    rw [sliceAux, if_neg (fun hh => absurd hh.2.1 (by omega))]
    simpa using ih (i + 1) (by omega)

theorem sliceAux_shift {α : Type} (s e step : ℕ) (l : List α) :
    ∀ i, sliceAux (s + 1) (e + 1) step (i + 1) l = sliceAux s e step i l := by
  induction l with
  | nil => intro i; rfl
  | cons x xs ih =>
    intro i
    rw [sliceAux, sliceAux]
    have hsub : i + 1 - (s + 1) = i - s := by omega
    have hcond : (s + 1 ≤ i + 1 ∧ i + 1 < e + 1 ∧ (i + 1 - (s + 1)) % step = 0) ↔
        (s ≤ i ∧ i < e ∧ (i - s) % step = 0) := by
      rw [hsub]
      constructor <;> rintro ⟨h1, h2, h3⟩ <;> exact ⟨by omega, by omega, h3⟩
    by_cases hc : s ≤ i ∧ i < e ∧ (i - s) % step = 0
    · rw [if_pos hc, if_pos (hcond.mpr hc), ih]
    · rw [if_neg hc, if_neg (fun hh => hc (hcond.mp hh)), ih]

theorem pySlice_cons {α : Type} (x : α) (xs : List α) (s e step : ℕ) (hs : 1 ≤ s) :
    pySlice (x :: xs) s e step = pySlice xs (s - 1) (e - 1) step := by
  rw [pySlice, pySlice, sliceAux, if_neg (fun hh => absurd hh.1 (by omega))]
  simp only [List.nil_append]
  cases e with
  | zero =>
    rw [sliceAux_stop_le _ _ _ _ _ (by omega), sliceAux_stop_le _ _ _ _ _ (by omega)]
  | succ e2 =>
    obtain ⟨s2, rfl⟩ : ∃ s2, s = s2 + 1 := ⟨s - 1, by omega⟩
    have h1 : s2 + 1 - 1 = s2 := by omega
    have h2 : e2 + 1 - 1 = e2 := by omega
    rw [h1, h2]
    exact sliceAux_shift s2 e2 step xs 0

theorem sliceAux_zero_shift3 {α : Type} (e : ℕ) (l : List α) :
    ∀ i, sliceAux 0 e 3 (i + 3) l = sliceAux 0 (e - 3) 3 i l := by
  induction l with
  | nil => intro i; rfl
  | cons x xs ih =>
    intro i
    rw [sliceAux, sliceAux]
    have hcond : (0 ≤ i + 3 ∧ i + 3 < e ∧ (i + 3 - 0) % 3 = 0) ↔
        (0 ≤ i ∧ i < e - 3 ∧ (i - 0) % 3 = 0) := by
      constructor <;> rintro ⟨h1, h2, h3⟩ <;> exact ⟨by omega, by omega, by omega⟩
    by_cases hc : 0 ≤ i ∧ i < e - 3 ∧ (i - 0) % 3 = 0
    · rw [if_pos hc, if_pos (hcond.mpr hc), ih]
    · rw [if_neg hc, if_neg (fun hh => hc (hcond.mp hh)), ih]

theorem pySlice_zero_aux {α : Type} (n : ℕ) :
    ∀ (l : List α), l.length ≤ n → ∀ m, pySlice l 0 m 3 = everyThird (l.take m) := by
  induction n with
  | zero =>
    intro l hl m
    have : l = [] := List.eq_nil_of_length_eq_zero (Nat.le_zero.mp hl)
    subst this
    rw [List.take_nil, everyThird]
    rfl
  | succ n ih =>
    intro l hl m
    match l, m with
    | [], _ =>
      rw [List.take_nil, everyThird]
      rfl
    | x :: xs, 0 =>
      rw [pySlice, sliceAux_stop_le _ _ _ _ _ (le_refl 0), List.take_zero, everyThird]
    | x :: xs, m + 1 =>
      rw [pySlice, sliceAux, if_pos ⟨le_refl 0, Nat.succ_pos m, by omega⟩,
        List.take_succ_cons]
      rw [everyThird]
      simp only [List.singleton_append, List.cons.injEq, true_and]
      have hdt : (xs.take m).drop 2 = (xs.drop 2).take (m - 2) := by
        rw [List.drop_take]
      cases xs with
      | nil =>
        rw [sliceAux]
        simp [everyThird]
      | cons y ys =>
        rw [sliceAux, if_neg (fun hh => absurd hh.2.2 (by norm_num))]
        simp only [List.nil_append]
        cases ys with
        | nil =>
          rw [sliceAux]
          have hty : ((y :: ([] : List α)).take m).drop 2 = [] := by
            apply List.drop_eq_nil_of_le
            simp only [List.length_take, List.length_cons, List.length_nil]
            omega
          rw [hty, everyThird]
        | cons z zs =>
          rw [sliceAux, if_neg (fun hh => absurd hh.2.2 (by norm_num))]
          simp only [List.nil_append]
          have h3 : (3 : ℕ) = 0 + 3 := rfl
          rw [h3, sliceAux_zero_shift3 (m + 1) zs 0]
          have hrec : pySlice zs 0 (m + 1 - 3) 3 = everyThird (zs.take (m + 1 - 3)) := by
            apply ih
            simp only [List.length_cons] at hl
            omega
          rw [pySlice] at hrec
          rw [hrec]
          have hdz : (y :: z :: zs).drop 2 = zs := rfl
          have hys : ((y :: z :: zs).take m).drop 2 = zs.take (m + 1 - 3) := by
            rw [List.drop_take, hdz]
            congr 1
          rw [hys]

theorem pySlice_zero_eq_everyThird {α : Type} (l : List α) (m : ℕ) :
    pySlice l 0 m 3 = everyThird (l.take m) :=
  pySlice_zero_aux l.length l (le_refl _) m

/-- C6: the x-axis tick labels are the strided subsample that skips the first
2 and last 2 dates and takes every 3rd of the rest when the series has more
than 4 points, and are every 3rd point of the whole series, without trimming
the ends, when the series has 4 or fewer points. -/
theorem tick_labels_strided {α : Type} (l : List α) : tickDates l = tickDatesSpec l := by
  rw [tickDates, tickDatesSpec]
  by_cases h : 4 < l.length
  · rw [if_pos (by omega : 2 * 2 < l.length), if_pos h]
    match l, h with
    | a :: b :: t, h =>
      have hlen : (a :: b :: t).length - 2 = t.length := by simp
      rw [hlen, pySlice_cons a (b :: t) 2 t.length 3 (by omega),
        pySlice_cons b t (2 - 1) (t.length - 1) 3 (by omega)]
      have h1 : (2 : ℕ) - 1 - 1 = 0 := rfl
      rw [h1, pySlice_zero_eq_everyThird t (t.length - 1 - 1)]
      have h2 : (a :: b :: t).drop 2 = t := rfl
      have h3 : (a :: b :: t).length - 4 = t.length - 1 - 1 := by
        simp only [List.length_cons]
        omega
      rw [h2, h3]
  · rw [if_neg (by omega : ¬2 * 2 < l.length), if_neg h,
      pySlice_zero_eq_everyThird l l.length, List.take_length]

end SaaSDash
